import Mathlib

/-!
Verification development for the ai-event-finder retrieval-augmented query pipeline.

Shallow embedding (in Lean) of the repository's core components:

- `app/repositories/chat_history_repository_impl.py` — `MemoryChatHistoryRepository`
- `app/services/model/model_service_impl.py` — `ModelServiceImpl`
  (`query_prompt`, `build_messages`, `extract_requested_event_count`)
- `app/services/embedding/embedding_service_impl.py` — `EmbeddingServiceImpl.create_embedding`
- `app/repositories/event_repository_impl.py` — `EventRepositoryImpl.search_by_embedding`
- `app/util/transaction_util.py` — `transactional`, `retry_conflicts`

Machine floats are idealized as exact rationals (inputs) and real numbers
(normalization); Python `int` is `Int`; Python exceptions are an explicit
`PyException` error type threaded through `Except`.
-/

namespace EventFinder

/-- Chat message: the Python dict `{"role": ..., "content": ...}`
(`Message = Dict[str, str]` in `chat_history_repository.py`). -/
structure Message where
  role : String
  content : String
deriving DecidableEq

/-- Python list slice `l[-m:]` for a Python integer `m` (the slice start index is `-m`).
For `m > 0` this keeps the last `m` elements (the start index `-m` is clamped to `0` when
`m > len(l)`); for `m = 0` the start index is `-0 = 0`, so the WHOLE list is kept; for
`m < 0` the start index is the nonnegative `-m`, so the first `-m` elements are dropped. -/
def pySliceLast (m : Int) (l : List α) : List α :=
  if 0 < m then l.drop (l.length - m.toNat) else l.drop (-m).toNat

/-- The `_store` dict of `MemoryChatHistoryRepository`, modelled as an association list
keyed by the session key (dict iteration order is not observable through the API). -/
abbrev Store := List (String × List Message)

/-- Python `dict` lookup `store.get(key)` over the association-list model. -/
def storeFind (s : Store) (k : String) : Option (List Message) :=
  match s with
  | [] => none
  | (k₁, v) :: rest => if k₁ = k then some v else storeFind rest k

/-- Python `store[key] = v`: replaces the binding in place when the key is present,
otherwise adds a new binding. -/
def storeInsert (s : Store) (k : String) (v : List Message) : Store :=
  match s with
  | [] => [(k, v)]
  | (k₁, v₁) :: rest => if k₁ = k then (k, v) :: rest else (k₁, v₁) :: storeInsert rest k v

/-- `MemoryChatHistoryRepository.__init__`: `self._store = {}`, `self._max = max_messages`.
The `threading.Lock` only serializes whole operations; each operation's semantics is the
body of `get` / `set` / `append` below. -/
structure HistRepo where
  max : Int
  store : Store
deriving DecidableEq

/-- Fresh repository with the given `max_messages` capacity. -/
def HistRepo.empty (max : Int) : HistRepo := ⟨max, []⟩

/-- `MemoryChatHistoryRepository.get`: `return list(self._store.get(key, []))`.
`dict.get` reads without inserting and the result is a fresh copy; the repository
state after the call is returned in the second component (it is unchanged). -/
def HistRepo.get (r : HistRepo) (k : String) : List Message × HistRepo :=
  ((storeFind r.store k).getD [], r)

/-- `MemoryChatHistoryRepository.set`: `self._store[key] = list(messages)[-self._max:]`. -/
def HistRepo.set (r : HistRepo) (k : String) (msgs : List Message) : HistRepo :=
  ⟨r.max, storeInsert r.store k (pySliceLast r.max msgs)⟩

/-- `MemoryChatHistoryRepository.append`: `hist = self._store.setdefault(key, [])` (inserts
`[]` when the key is absent and returns the stored, aliased list), then `hist.append(...)`
(in place, so the stored value now ends with the new message), then
`if len(hist) > self._max: self._store[key] = hist[-self._max:]`.  The net effect on the
store is a single binding update to the final list. -/
def HistRepo.append (r : HistRepo) (k role content : String) : HistRepo :=
  let hist := (storeFind r.store k).getD []
  let hist1 := hist ++ [⟨role, content⟩]
  if r.max < (hist1.length : Int) then
    ⟨r.max, storeInsert r.store k (pySliceLast r.max hist1)⟩
  else
    ⟨r.max, storeInsert r.store k hist1⟩

/-- One mutating call to the history repository (used to quantify over arbitrary
sequences of `set`/`append` calls). -/
inductive HistOp where
  | set (key : String) (msgs : List Message)
  | append (key : String) (role content : String)

/-- The session key an operation targets. -/
def HistOp.key : HistOp → String
  | .set k _ => k
  | .append k _ _ => k

/-- Run one operation against the repository. -/
def HistOp.apply (r : HistRepo) : HistOp → HistRepo
  | .set k msgs => r.set k msgs
  | .append k role content => r.append k role content

/-- Run a sequence of operations, first to last. -/
def applyOps (r : HistRepo) (ops : List HistOp) : HistRepo :=
  ops.foldl HistOp.apply r

/-- The single-key evolution performed by one `append` on the history stored for its key. -/
def appendOne (max : Int) (h : List Message) (m : Message) : List Message :=
  let h1 := h ++ [m]
  if max < (h1.length : Int) then pySliceLast max h1 else h1

theorem storeFind_storeInsert_self (s : Store) (k : String) (v : List Message) :
    storeFind (storeInsert s k v) k = some v := by
  induction s with
  | nil => simp [storeInsert, storeFind]
  | cons p rest ih =>
    obtain ⟨k₁, v₁⟩ := p
    by_cases h : k₁ = k <;> simp [storeInsert, storeFind, h, ih]

theorem storeFind_storeInsert_ne (s : Store) (k k₁ : String) (v : List Message)
    (h : k ≠ k₁) : storeFind (storeInsert s k v) k₁ = storeFind s k₁ := by
  induction s with
  | nil => simp [storeInsert, storeFind, h]
  | cons p rest ih =>
    obtain ⟨k₂, v₂⟩ := p
    by_cases h2 : k₂ = k
    · subst h2
      simp [storeInsert, storeFind, h]
    · simp [storeInsert, storeFind, h2, ih]

theorem storeFind_mem (s : Store) (k : String) (v : List Message)
    (h : storeFind s k = some v) : (k, v) ∈ s := by
  induction s with
  | nil => simp [storeFind] at h
  | cons p rest ih =>
    obtain ⟨k₁, v₁⟩ := p
    by_cases h1 : k₁ = k
    · subst h1
      simp [storeFind] at h
      simp [h]
    · simp [storeFind, h1] at h
      exact List.mem_cons_of_mem _ (ih h)

theorem pySliceLast_length_le (m : Int) (hm : 0 < m) (l : List α) :
    (pySliceLast m l).length ≤ m.toNat := by
  simp only [pySliceLast, if_pos hm, List.length_drop]
  omega

/-- Invariant: every stored history has length at most `c`. -/
def storeBounded (c : Nat) (s : Store) : Prop := ∀ p ∈ s, (p.2).length ≤ c

theorem storeBounded_insert {c : Nat} {s : Store} (hs : storeBounded c s)
    (k : String) {v : List Message} (hv : v.length ≤ c) :
    storeBounded c (storeInsert s k v) := by
  induction s with
  | nil =>
    intro p hp
    simp [storeInsert] at hp
    simp [hp, hv]
  | cons q rest ih =>
    obtain ⟨k₁, v₁⟩ := q
    intro p hp
    by_cases h1 : k₁ = k
    · simp [storeInsert, h1] at hp
      rcases hp with hp | hp
      · simp [hp, hv]
      · exact hs p (List.mem_cons_of_mem _ hp)
    · simp only [storeInsert, if_neg h1, List.mem_cons] at hp
      rcases hp with hp | hp
      · exact hs p (by simp [hp])
      · exact ih (fun q hq => hs q (List.mem_cons_of_mem _ hq)) p hp

theorem HistRepo.append_max (r : HistRepo) (k role content : String) :
    (r.append k role content).max = r.max := by
  simp only [HistRepo.append]
  split <;> rfl

theorem storeBounded_op {max : Int} (hmax : 1 ≤ max) {r : HistRepo}
    (hr : r.max = max) (hs : storeBounded max.toNat r.store) (op : HistOp) :
    (HistOp.apply r op).max = max ∧ storeBounded max.toNat (HistOp.apply r op).store := by
  have hpos : (0 : Int) < max := by omega
  cases op with
  | set k msgs =>
    refine ⟨hr, ?_⟩
    simp only [HistOp.apply, HistRepo.set, hr]
    exact storeBounded_insert hs k (pySliceLast_length_le max hpos msgs)
  | append k role content =>
    refine ⟨by rw [HistOp.apply, HistRepo.append_max, hr], ?_⟩
    simp only [HistOp.apply, HistRepo.append, hr]
    have hhist : ((storeFind r.store k).getD []).length ≤ max.toNat := by
      cases hfind : storeFind r.store k with
      | none => simp
      | some v =>
        simpa using hs (k, v) (storeFind_mem r.store k v hfind)
    by_cases hover :
        max < ((((storeFind r.store k).getD []) ++ [(⟨role, content⟩ : Message)]).length : Int)
    · simp only [if_pos hover]
      exact storeBounded_insert hs k (pySliceLast_length_le max hpos _)
    · simp only [if_neg hover]
      refine storeBounded_insert hs k ?_
      simp only [List.length_append, List.length_singleton] at hover ⊢
      omega

theorem applyOps_bounded {max : Int} (hmax : 1 ≤ max) (ops : List HistOp)
    {r : HistRepo} (hr : r.max = max) (hs : storeBounded max.toNat r.store) :
    (applyOps r ops).max = max ∧ storeBounded max.toNat (applyOps r ops).store := by
  induction ops generalizing r with
  | nil => exact ⟨hr, hs⟩
  | cons op rest ih =>
    have h1 := storeBounded_op hmax hr hs op
    exact ih h1.1 h1.2

theorem HistRepo.append_store (r : HistRepo) (k role content : String) :
    (r.append k role content).store =
      storeInsert r.store k
        (appendOne r.max ((storeFind r.store k).getD []) ⟨role, content⟩) := by
  simp only [HistRepo.append, appendOne]
  split <;> rfl

theorem applyOps_appends_get (max : Int) (k : String) (ms : List (String × String))
    (r : HistRepo) (hr : r.max = max) :
    ((applyOps r (ms.map fun rc => HistOp.append k rc.1 rc.2)).get k).1 =
      ms.foldl (fun h rc => appendOne max h ⟨rc.1, rc.2⟩)
        ((storeFind r.store k).getD []) := by
  induction ms generalizing r with
  | nil => simp [applyOps, HistRepo.get]
  | cons rc rest ih =>
    simp only [List.map_cons, applyOps, List.foldl_cons]
    have hmax : (HistOp.apply r (HistOp.append k rc.1 rc.2)).max = max := by
      rw [HistOp.apply, HistRepo.append_max, hr]
    have := ih (HistOp.apply r (HistOp.append k rc.1 rc.2)) hmax
    simp only [applyOps] at this
    rw [this]
    congr 1
    simp only [HistOp.apply, HistRepo.append_store, storeFind_storeInsert_self,
      Option.getD_some, hr]

theorem foldl_appendOne_closed (max : Int) (hmax : 1 ≤ max) (ms : List Message) :
    ms.foldl (appendOne max) [] = ms.drop (ms.length - max.toNat) := by
  induction ms using List.reverseRecOn with
  | nil => simp
  | append_singleton l m ih =>
    rw [List.foldl_append, List.foldl_cons, List.foldl_nil, ih]
    set n := l.length with hn
    set C := max.toNat with hC
    have hC1 : 1 ≤ C := by omega
    have hdroplen : (l.drop (n - C)).length = n - (n - C) := by
      simp [List.length_drop]
    by_cases hle : C ≤ n
    · have hsplit : (l ++ [m]).drop (n - C) = l.drop (n - C) ++ [m] :=
        List.drop_append_of_le_length (by omega)
      have hover : max < (((l.drop (n - C) ++ [m]).length : Nat) : Int) := by
        have : (l.drop (n - C) ++ [m]).length = C + 1 := by
          simp [List.length_append, hdroplen]
          omega
        rw [this]
        omega
      rw [appendOne]
      simp only [if_pos hover]
      rw [pySliceLast, if_pos (by omega : (0 : Int) < max)]
      rw [← hsplit, List.drop_drop]
      congr 1
      simp only [List.length_append, List.length_drop, List.length_singleton]
      omega
    · have hdrop0 : n - C = 0 := by omega
      have hunder : ¬ max < (((l.drop (n - C) ++ [m]).length : Nat) : Int) := by
        have : (l.drop (n - C) ++ [m]).length = n + 1 := by
          simp [List.length_append, hdroplen]
          omega
        rw [this]
        omega
      rw [appendOne]
      simp only [if_neg hunder]
      have : (l ++ [m]).length - C = 0 := by
        simp only [List.length_append, List.length_singleton]
        omega
      rw [this, hdrop0]
      simp

theorem storeFind_untouched (k : String) (ops : List HistOp)
    (hops : ∀ op ∈ ops, HistOp.key op ≠ k) (r : HistRepo)
    (hr : storeFind r.store k = none) :
    storeFind (applyOps r ops).store k = none := by
  induction ops generalizing r with
  | nil => exact hr
  | cons op rest ih =>
    refine ih (fun o ho => hops o (List.mem_cons_of_mem _ ho)) _ ?_
    have hne : HistOp.key op ≠ k := hops op (List.mem_cons_self _ _)
    cases op with
    | set k₁ msgs =>
      simp only [HistOp.key] at hne
      simp only [HistOp.apply, HistRepo.set]
      rw [storeFind_storeInsert_ne _ _ _ _ hne, hr]
    | append k₁ role content =>
      simp only [HistOp.key] at hne
      simp only [HistOp.apply]
      rw [HistRepo.append_store, storeFind_storeInsert_ne _ _ _ _ hne, hr]

/-- C9 (amended: capacity at least 1).  For every session key of
`MemoryChatHistoryRepository` with capacity `C ≥ 1`: after any sequence of `set` and
`append` operations the stored sequence for the key has length at most `C`, and calling
`append` N times in sequence on a fresh key makes `get` return exactly the last
`min(N, C)` appended messages in call order (a suffix of the appended sequence, so
eviction happens only at the front, never in the middle). -/
theorem history_capacity_bound_and_fifo (max : Int) (hmax : 1 ≤ max) :
    (∀ (ops : List HistOp) (k : String),
        ((applyOps (HistRepo.empty max) ops).get k).1.length ≤ max.toNat) ∧
    (∀ (k : String) (ms : List (String × String)),
        ((applyOps (HistRepo.empty max)
            (ms.map fun rc => HistOp.append k rc.1 rc.2)).get k).1 =
          (ms.map fun rc => (⟨rc.1, rc.2⟩ : Message)).drop (ms.length - max.toNat)) := by
  constructor
  · intro ops k
    have hb := (@applyOps_bounded max hmax ops (HistRepo.empty max) rfl
      (by intro p hp; simp [HistRepo.empty] at hp)).2
    simp only [HistRepo.get]
    cases hfind : storeFind (applyOps (HistRepo.empty max) ops).store k with
    | none => simp
    | some v =>
      simpa using hb (k, v) (storeFind_mem _ k v hfind)
  · intro k ms
    rw [applyOps_appends_get max k ms (HistRepo.empty max) rfl]
    have : (storeFind (HistRepo.empty max).store k).getD [] = ([] : List Message) := rfl
    rw [this]
    have hfold :
        ms.foldl (fun h rc => appendOne max h ⟨rc.1, rc.2⟩) [] =
          (ms.map fun rc => (⟨rc.1, rc.2⟩ : Message)).foldl (appendOne max) [] := by
      rw [List.foldl_map]
    rw [hfold, foldl_appendOne_closed max hmax]
    simp

/-- Witness for C9's amended theorem at capacity 2 and three appends. -/
theorem history_capacity_bound_and_fifo_witness :
    ((applyOps (HistRepo.empty 2)
        [HistOp.append "s" "user" "a", HistOp.append "s" "assistant" "b"]).get "s").1.length
      ≤ (2 : Int).toNat ∧
    ((applyOps (HistRepo.empty 2)
        ([("user", "a"), ("assistant", "b"), ("user", "c")].map
          fun rc => HistOp.append "s" rc.1 rc.2)).get "s").1 =
      ([("user", "a"), ("assistant", "b"), ("user", "c")].map
          fun rc => (⟨rc.1, rc.2⟩ : Message)).drop
        ([("user", "a"), ("assistant", "b"), ("user", "c")].length - (2 : Int).toNat) :=
  ⟨(history_capacity_bound_and_fifo 2 (by decide)).1
      [HistOp.append "s" "user" "a", HistOp.append "s" "assistant" "b"] "s",
    (history_capacity_bound_and_fifo 2 (by decide)).2 "s"
      [("user", "a"), ("assistant", "b"), ("user", "c")]⟩

/-- C9 counterexample: with capacity `C = 0` the claim's length bound fails.  The Python
slice `hist[-self._max:]` with `_max = 0` is `hist[0:]`, the whole list, so one `append`
on a fresh key leaves one stored message, exceeding the capacity 0. -/
theorem history_capacity_zero_violates_bound :
    ¬ ((((HistRepo.empty 0).append "s" "user" "hi").get "s").1.length ≤ (0 : Int).toNat) := by
  decide

/-- C10: `MemoryChatHistoryRepository.get` on a key never written by `set` or `append`
returns the empty sequence (not an error or null), and `get` does not modify the store —
in particular it creates no entry for the queried key. -/
theorem get_fresh_key_empty_and_pure (max : Int) (ops : List HistOp) (k : String)
    (hops : ∀ op ∈ ops, HistOp.key op ≠ k) :
    ((applyOps (HistRepo.empty max) ops).get k).1 = [] ∧
    ((applyOps (HistRepo.empty max) ops).get k).2 = applyOps (HistRepo.empty max) ops := by
  have hnone : storeFind (applyOps (HistRepo.empty max) ops).store k = none :=
    storeFind_untouched k ops hops (HistRepo.empty max) rfl
  exact ⟨by simp [HistRepo.get, hnone], rfl⟩

/-- Witness for C10 at a store that was written under two other keys. -/
theorem get_fresh_key_empty_and_pure_witness :
    ((applyOps (HistRepo.empty 50)
        [HistOp.set "a" [⟨"user", "x"⟩], HistOp.append "b" "user" "y"]).get "c").1 = [] ∧
    ((applyOps (HistRepo.empty 50)
        [HistOp.set "a" [⟨"user", "x"⟩], HistOp.append "b" "user" "y"]).get "c").2 =
      applyOps (HistRepo.empty 50)
        [HistOp.set "a" [⟨"user", "x"⟩], HistOp.append "b" "user" "y"] :=
  get_fresh_key_empty_and_pure 50
    [HistOp.set "a" [⟨"user", "x"⟩], HistOp.append "b" "user" "y"] "c"
    (by intro op hop; fin_cases hop <;> simp [HistOp.key])

/-- Python exceptions raised (or wrapped) by the embedded code.
`app/error_handler/exceptions.py` defines a single `EmbeddingServiceException` class for
all embedding failures (message, HTTP-like `status_code`, default 500; the
`original_exception` diagnostic payload is not modelled) and a `ConcurrencyException`;
the remaining constructors are Python built-ins and library errors. -/
inductive PyException where
  | valueError (msg : String)
  | attributeError
  | embeddingService (message : String) (status_code : Int)
  | staleData
  | concurrency (message : String)
  | invalidRowCountInLimit
  | providerFailure (code : Nat)
deriving DecidableEq

/-- The Python class name of an exception (what an `except`/handler discriminates on). -/
def PyException.className : PyException → String
  | .valueError _ => "ValueError"
  | .attributeError => "AttributeError"
  | .embeddingService _ _ => "EmbeddingServiceException"
  | .staleData => "StaleDataError"
  | .concurrency _ => "ConcurrencyException"
  | .invalidRowCountInLimit => "DataError"
  | .providerFailure _ => "Exception"

/-- `resp.choices[i].message` with its `Optional[str]` content (openai chat types). -/
structure CompletionMessage where
  content : Option String
deriving DecidableEq

/-- One entry of `resp.choices`; the `message` attribute may be `None`. -/
structure CompletionChoice where
  message : Option CompletionMessage
deriving DecidableEq

/-- A chat-completion response as consumed by `ModelServiceImpl`. -/
structure CompletionResponse where
  choices : List CompletionChoice
deriving DecidableEq

/-- Characters of a string with leading and trailing whitespace removed. -/
def listStrip (l : List Char) : List Char :=
  ((l.dropWhile Char.isWhitespace).reverse.dropWhile Char.isWhitespace).reverse

/-- Python `str.strip()`: remove whitespace from both ends. -/
def pyStrip (s : String) : String :=
  ⟨listStrip s.data⟩

/-- Value of a nonempty decimal digit string. -/
def digitsVal (ds : List Char) : Nat :=
  ds.foldl (fun a c => a * 10 + (c.toNat - 48)) 0

/-- Nonempty and all decimal digits. -/
def isDigitSeq (ds : List Char) : Bool :=
  !ds.isEmpty && ds.all (·.isDigit)

/-- Python built-in `int(s)` on an already-stripped string: an optional sign followed by
one or more decimal digits; anything else raises `ValueError`.  (Python additionally
accepts underscores between digits and surrounding whitespace; neither case arises here
since the call sites strip first.) -/
def pyInt (s : String) : Option Int :=
  match s.data with
  | '-' :: rest => if isDigitSeq rest then some (-(digitsVal rest : Int)) else none
  | '+' :: rest => if isDigitSeq rest then some ((digitsVal rest : Int)) else none
  | ds => if isDigitSeq ds then some ((digitsVal ds : Int)) else none

/-- `ModelServiceImpl.extract_requested_event_count`, modelled from the point where its
completion call returns (the COUNT_EXTRACT_SYS_PROMPT request itself is provider-side and
its outcome is the argument):
`content = resp.choices[0].message.content if resp.choices and resp.choices[0].message
else "0"` followed by `return int(content.strip())`.  A `None` content reaches
`content.strip()` and raises `AttributeError`; non-integer content makes `int` raise
`ValueError`; a raised exception from the completion call propagates. -/
def extract_requested_event_count (call : Except PyException CompletionResponse) :
    Except PyException Int := do
  let resp ← call
  let content : Option String :=
    match resp.choices with
    | [] => some "0"
    | c :: _ =>
      match c.message with
      | none => some "0"
      | some m => m.content
  match content with
  | none => .error .attributeError
  | some s =>
    match pyInt (pyStrip s) with
    | some n => .ok n
    | none => .error (.valueError ("invalid literal for int() with base 10: " ++ pyStrip s))

/-- C1 counterexample: a completion response with no choices is quietly mapped to the
string "0" and the extraction returns 0 — directly violating both the `≥ 1` contract and
the claim that a no-choices response is not mapped to 0.  (No `CountExtractionError`
class exists anywhere in the codebase.) -/
theorem extract_count_no_choices_returns_zero :
    extract_requested_event_count (.ok ⟨[]⟩) = .ok 0 ∧ ¬ (1 ≤ (0 : Int)) :=
  ⟨rfl, by decide⟩

/-- C1 (amended): `extract_requested_event_count` returns whatever integer the trimmed
completion content parses to, with no lower bound (values below 1 are returned as-is);
a completion response with no choices is mapped to the literal "0" and yields 0; content
that does not parse as an integer raises Python's built-in `ValueError` — there is no
distinguished `CountExtractionError` in the codebase. -/
theorem extract_count_amended :
    (∀ resp : CompletionResponse, resp.choices = [] →
        extract_requested_event_count (.ok resp) = .ok 0) ∧
    (∀ (s : String) (n : Int) (rest : List CompletionChoice),
        pyInt (pyStrip s) = some n →
        extract_requested_event_count (.ok ⟨⟨some ⟨some s⟩⟩ :: rest⟩) = .ok n) ∧
    (∀ (s : String) (rest : List CompletionChoice),
        pyInt (pyStrip s) = none →
        extract_requested_event_count (.ok ⟨⟨some ⟨some s⟩⟩ :: rest⟩) =
          .error (.valueError ("invalid literal for int() with base 10: " ++ pyStrip s))) := by
  refine ⟨?_, ?_, ?_⟩
  · intro resp h
    cases resp with
    | mk choices =>
      cases h
      rfl
  · intro s n rest h
    simp only [extract_requested_event_count, Except.bind, Bind.bind, pure]
    rw [h]
  · intro s rest h
    simp only [extract_requested_event_count, Except.bind, Bind.bind, pure]
    rw [h]

/-- Witness for C1's amended theorem: no choices gives 0; content " -2 " parses to the
negative integer -2 (below the claimed lower bound of 1) and is returned unchanged;
content "five" raises `ValueError`. -/
theorem extract_count_amended_witness :
    extract_requested_event_count (.ok ⟨[]⟩) = .ok 0 ∧
    extract_requested_event_count (.ok ⟨[⟨some ⟨some " -2 "⟩⟩]⟩) = .ok (-2) ∧
    extract_requested_event_count (.ok ⟨[⟨some ⟨some "five"⟩⟩]⟩) =
      .error (.valueError ("invalid literal for int() with base 10: " ++ pyStrip "five")) :=
  ⟨extract_count_amended.1 ⟨[]⟩ rfl,
    extract_count_amended.2.1 " -2 " (-2) [] (by decide),
    extract_count_amended.2.2 "five" [] (by decide)⟩

/-- Event entity as consumed by `format_event` and `search_by_embedding`.  The textual
fields are nullable columns; `datetimeIso` abstracts the string
`event.datetime.isoformat()` and `organizer` abstracts the display string
`str(event.organizer)` (both `None` when the attribute is absent); `embedding` is the
nullable fixed-dimension vector. -/
structure Event where
  title : Option String
  description : Option String
  location : Option String
  category : Option String
  datetimeIso : Option String
  organizer : Option String
  embedding : Option (List ℚ)
deriving DecidableEq

/-- `app/util/format_event_util.py::format_event`: pipe-joined fields, `None` (and, via
Python falsiness, empty) fields rendered as the empty string. -/
def format_event (e : Event) : String :=
  String.intercalate " | "
    [e.title.getD "", e.description.getD "", e.location.getD "", e.category.getD "",
      e.datetimeIso.getD "", e.organizer.getD ""]

/-- Configuration fields of `app/configuration/config.py` consumed by the embedded code;
both are environment-derived Python ints (defaults: `UNIFIED_VECTOR_DIM = 1024`,
`MAX_HISTORY_IN_CONTEXT = 5`). -/
structure Config where
  UNIFIED_VECTOR_DIM : Nat
  MAX_HISTORY_IN_CONTEXT : Int
deriving DecidableEq

/-- The `ctx_text` binding of `ModelServiceImpl.build_messages`:
`(context or "no events retrieved").strip()`.  The fallback marker is used exactly when
`context` is the empty string (Python falsiness of `str`). -/
def ctxText (context : String) : String :=
  pyStrip (if context = "" then "no events retrieved" else context)

/-- `ModelServiceImpl.build_messages`: `sys_text = (sys_prompt or "").strip()`,
`ctx_text = (context or "no events retrieved").strip()`, then a system message with
content `f"{sys_text}\n\n{ctx_text}".strip()` followed by the verbatim user message. -/
def build_messages (sys_prompt : Option String) (context user_prompt : String) :
    List Message :=
  let sys_text := pyStrip (sys_prompt.getD "")
  let ctx_text := ctxText context
  [⟨"system", pyStrip (sys_text ++ "\n\n" ++ ctx_text)⟩, ⟨"user", user_prompt⟩]

/-- The `history_block`/`count` computation of `ModelServiceImpl.query_prompt`
(lines 101–113): runs only when `session_key` is truthy and a history repository is
configured.  `recent = prior[-Config.MAX_HISTORY_IN_CONTEXT:] if prior else []`;
`count = len(recent)`; when `recent` is nonempty the block joins
`f"{role}: {content}".strip()` lines for the messages whose role and content are both
truthy (nonempty). -/
def historyBlock (cfg : Config) (historyRepo : Option HistRepo) (session_key : String) :
    String × Nat :=
  if session_key ≠ "" then
    match historyRepo with
    | some repo =>
      let prior := (repo.get session_key).1
      let recent := if prior ≠ [] then pySliceLast cfg.MAX_HISTORY_IN_CONTEXT prior else []
      if recent ≠ [] then
        let lines := (recent.filter fun m => !(m.role == "") && !(m.content == "")).map
          (fun m => pyStrip (m.role ++ ": " ++ m.content))
        (String.intercalate "\n" lines, recent.length)
      else ("", recent.length)
    | none => ("", 0)
  else ("", 0)

/-- The `parts`/`combined_context` computation of `query_prompt` (lines 115–122). -/
def combinedContext (rag_docs history_block : String) (count : Nat) : String :=
  let parts : List String :=
    (if pyStrip rag_docs ≠ "" then ["DOCUMENTS:\n" ++ rag_docs] else []) ++
    (if history_block ≠ "" then
        ["RECENT MESSAGES (last " ++ toString count ++ "):\n" ++ history_block] else [])
  if parts ≠ [] then String.intercalate "\n\n" parts else "No context available."

/-- The message list `query_prompt` sends to the chat-completion provider (lines 99–126):
the retrieved events are formatted and newline-joined into `rag_docs`, merged with the
history block into `combined_context`, and passed to `build_messages`. -/
def assembledMessages (cfg : Config) (sys_prompt : Option String)
    (historyRepo : Option HistRepo) (events : List Event)
    (user_prompt session_key : String) : List Message :=
  let rag_docs := String.intercalate "\n" (events.map format_event)
  let hb := historyBlock cfg historyRepo session_key
  build_messages sys_prompt (combinedContext rag_docs hb.1 hb.2) user_prompt

/-- Line 135–136 of `query_prompt`:
`((resp.choices[0].message.content if resp.choices and resp.choices[0].message else "")
or "").strip()`. -/
def answerOf (resp : CompletionResponse) : String :=
  pyStrip
    (match resp.choices with
      | [] => ""
      | c :: _ =>
        match c.message with
        | none => ""
        | some m => m.content.getD "")

/-- The injected collaborators of `ModelServiceImpl` as seen by `query_prompt`, each
modelled as a function from its request to a result or a raised exception:
`embedding_service.create_embedding`, the count-extraction completion call (determined by
the user prompt), `event_repository.search_by_embedding`, and the main chat completion
call (determined by the message list sent). -/
structure QueryDeps where
  create_embedding : String → Except PyException (List ℚ)
  count_completion : String → Except PyException CompletionResponse
  search_by_embedding : List ℚ → Int → Except PyException (List Event)
  chat_completion : List Message → Except PyException CompletionResponse

/-- `ModelServiceImpl.query_prompt`: embed the prompt, extract the requested event count,
retrieve events, assemble the context, call the chat completion, and — only after a
successful completion and only when `session_key` is truthy and a history repository is
configured — append the raw user prompt and then the produced answer to the session
history.  The pair returned is the answer (or raised exception) and the history
repository state after the call. -/
def query_prompt (cfg : Config) (deps : QueryDeps) (sys_prompt : Option String)
    (historyRepo : Option HistRepo) (user_prompt session_key : String) :
    Except PyException String × Option HistRepo :=
  match deps.create_embedding user_prompt with
  | .error e => (.error e, historyRepo)
  | .ok embed_vector =>
    match extract_requested_event_count (deps.count_completion user_prompt) with
    | .error e => (.error e, historyRepo)
    | .ok k =>
      match deps.search_by_embedding embed_vector k with
      | .error e => (.error e, historyRepo)
      | .ok events =>
        let messages := assembledMessages cfg sys_prompt historyRepo events
          user_prompt session_key
        match deps.chat_completion messages with
        | .error e => (.error e, historyRepo)
        | .ok resp =>
          let answer := answerOf resp
          if session_key ≠ "" then
            match historyRepo with
            | some repo =>
              (.ok answer,
                some ((repo.append session_key "user" user_prompt).append
                  session_key "assistant" answer))
            | none => (.ok answer, historyRepo)
          else (.ok answer, historyRepo)

/-- Substring occurrence test, decidably: `pat` occurs contiguously in `s`. -/
def strContains (s pat : String) : Bool :=
  (List.range (s.data.length + 1)).any fun i => pat.data.isPrefixOf (s.data.drop i)

/-- Collaborators that all succeed, with a chat completion that echoes back the content of
the system message it was sent (so the message actually sent to the provider is observable
through the returned answer). -/
def echoDeps : QueryDeps where
  create_embedding := fun _ => .ok [1]
  count_completion := fun _ => .ok ⟨[⟨some ⟨some "3"⟩⟩]⟩
  search_by_embedding := fun _ _ => .ok []
  chat_completion := fun msgs =>
    .ok ⟨[⟨some ⟨some ((msgs.headD ⟨"", ""⟩).content)⟩⟩]⟩

/-- C2 counterexample: a `query_prompt` call whose similarity search returns no events and
which has no conversation history (no history repository configured).  The chat completion
echoes the system message it received: the system message is
"You are an Event Assistant.\n\nNo context available." — its context portion is the
literal "No context available.", and the marker text "no events retrieved" does NOT occur
in it. -/
theorem query_prompt_no_events_lacks_marker :
    query_prompt ⟨1024, 5⟩ echoDeps (some "You are an Event Assistant.") none "hi" "sess" =
      (.ok "You are an Event Assistant.\n\nNo context available.", none) ∧
    strContains "You are an Event Assistant.\n\nNo context available."
      "no events retrieved" = false :=
  ⟨rfl, by decide⟩

/-- C2 (amended): when the similarity search returns no events and no conversation history
is present, the context portion of the system message sent to the completion provider is
the literal "No context available." — never the empty string; the "no events retrieved"
fallback of `build_messages` is produced exactly when its `context` argument is the empty
string, which `query_prompt` never passes. -/
theorem query_prompt_context_amended (cfg : Config) (sys_prompt : Option String)
    (hr : Option HistRepo) (user_prompt session_key : String)
    (hnohist : hr = none ∨ session_key = "" ∨
      ∀ repo, hr = some repo → (repo.get session_key).1 = []) :
    assembledMessages cfg sys_prompt hr [] user_prompt session_key =
      build_messages sys_prompt "No context available." user_prompt ∧
    ctxText "No context available." = "No context available." ∧
    ("No context available." : String) ≠ "" ∧
    ctxText "" = "no events retrieved" := by
  refine ⟨?_, by decide, by decide, by decide⟩
  have hhb : (historyBlock cfg hr session_key).1 = "" := by
    rcases hnohist with h | h | h
    · subst h
      unfold historyBlock
      split <;> rfl
    · simp [historyBlock, h]
    · cases hr with
      | none =>
        unfold historyBlock
        split <;> rfl
      | some repo =>
        have hp := h repo rfl
        unfold historyBlock
        split
        · simp [hp]
        · rfl
  simp only [assembledMessages]
  rw [hhb]
  rfl

/-- Witness for C2's amended theorem with a configured history repository whose store is
empty for the session key. -/
theorem query_prompt_context_amended_witness :
    assembledMessages ⟨1024, 5⟩ (some "sys") (some (HistRepo.empty 50)) [] "hi" "sess" =
      build_messages (some "sys") "No context available." "hi" ∧
    ctxText "No context available." = "No context available." ∧
    ("No context available." : String) ≠ "" ∧
    ctxText "" = "no events retrieved" :=
  query_prompt_context_amended ⟨1024, 5⟩ (some "sys") (some (HistRepo.empty 50)) "hi" "sess"
    (Or.inr (Or.inr (by intro repo h; cases h; rfl)))

/-- C3: `query_prompt` leaves the history repository completely unchanged whenever any
step (embedding, count extraction, retrieval, context formatting, or the completion call)
raises; and on a fully successful round-trip with history tracking enabled (truthy session
key and configured repository) the final state is exactly two appends to the session key:
first the raw user prompt with role "user", then the produced answer with role
"assistant", in that order. -/
theorem query_prompt_history_mutation :
    (∀ (cfg : Config) (deps : QueryDeps) (sys_prompt : Option String)
        (hr : Option HistRepo) (user_prompt session_key : String) (e : PyException),
        (query_prompt cfg deps sys_prompt hr user_prompt session_key).1 = .error e →
        (query_prompt cfg deps sys_prompt hr user_prompt session_key).2 = hr) ∧
    (∀ (cfg : Config) (deps : QueryDeps) (sys_prompt : Option String) (repo : HistRepo)
        (user_prompt session_key : String) (ans : String),
        session_key ≠ "" →
        (query_prompt cfg deps sys_prompt (some repo) user_prompt session_key).1 =
          .ok ans →
        (query_prompt cfg deps sys_prompt (some repo) user_prompt session_key).2 =
          some ((repo.append session_key "user" user_prompt).append
            session_key "assistant" ans)) := by
  constructor
  · intro cfg deps sys_prompt hr user_prompt session_key e h
    simp only [query_prompt] at h ⊢
    cases hemb : deps.create_embedding user_prompt with
    | error e1 => simp [hemb]
    | ok v =>
      simp only [hemb] at h ⊢
      cases hcnt : extract_requested_event_count (deps.count_completion user_prompt) with
      | error e1 => simp [hcnt]
      | ok k =>
        simp only [hcnt] at h ⊢
        cases hsearch : deps.search_by_embedding v k with
        | error e1 => simp [hsearch]
        | ok events =>
          simp only [hsearch] at h ⊢
          cases hchat : deps.chat_completion
              (assembledMessages cfg sys_prompt hr events user_prompt session_key) with
          | error e1 => simp [hchat]
          | ok resp =>
            simp only [hchat] at h
            by_cases hsk : session_key ≠ ""
            · simp only [if_pos hsk] at h
              cases hr with
              | none => simp at h
              | some repo => simp at h
            · simp only [if_neg hsk] at h
              simp at h
  · intro cfg deps sys_prompt repo user_prompt session_key ans hsk h
    simp only [query_prompt] at h ⊢
    cases hemb : deps.create_embedding user_prompt with
    | error e1 => simp [hemb] at h
    | ok v =>
      simp only [hemb] at h ⊢
      cases hcnt : extract_requested_event_count (deps.count_completion user_prompt) with
      | error e1 => simp [hcnt] at h
      | ok k =>
        simp only [hcnt] at h ⊢
        cases hsearch : deps.search_by_embedding v k with
        | error e1 => simp [hsearch] at h
        | ok events =>
          simp only [hsearch] at h ⊢
          cases hchat : deps.chat_completion
              (assembledMessages cfg sys_prompt (some repo) events user_prompt
                session_key) with
          | error e1 => simp [hchat] at h
          | ok resp =>
            simp only [hchat, if_pos hsk] at h ⊢
            simp at h
            rw [h]

/-- Collaborators that all succeed with a fixed answer text, for a successful round-trip. -/
def okDeps : QueryDeps where
  create_embedding := fun _ => .ok [1]
  count_completion := fun _ => .ok ⟨[⟨some ⟨some "3"⟩⟩]⟩
  search_by_embedding := fun _ _ => .ok []
  chat_completion := fun _ => .ok ⟨[⟨some ⟨some "the answer"⟩⟩]⟩

/-- Collaborators whose embedding call raises, for the failure path. -/
def failDeps : QueryDeps where
  create_embedding := fun _ => .error (.embeddingService "OpenAI embedding request failed." 500)
  count_completion := fun _ => .ok ⟨[]⟩
  search_by_embedding := fun _ _ => .ok []
  chat_completion := fun _ => .ok ⟨[]⟩

/-- Witness for C3: a failing embedding leaves the repository untouched, and a successful
round-trip appends exactly the user prompt and then the answer. -/
theorem query_prompt_history_mutation_witness :
    (query_prompt ⟨1024, 5⟩ failDeps (some "sys") (some (HistRepo.empty 50)) "hi" "s").2 =
      some (HistRepo.empty 50) ∧
    (query_prompt ⟨1024, 5⟩ okDeps (some "sys") (some (HistRepo.empty 50)) "hi" "s").2 =
      some (((HistRepo.empty 50).append "s" "user" "hi").append "s" "assistant"
        "the answer") :=
  ⟨query_prompt_history_mutation.1 ⟨1024, 5⟩ failDeps (some "sys")
      (some (HistRepo.empty 50)) "hi" "s"
      (.embeddingService "OpenAI embedding request failed." 500) rfl,
    query_prompt_history_mutation.2 ⟨1024, 5⟩ okDeps (some "sys") (HistRepo.empty 50)
      "hi" "s" "the answer" (by decide) rfl⟩

/-- SQLAlchemy session state as observed by `app/util/transaction_util.py`: whether a
transaction is active (`session.get_transaction() is None` decides outermost-ness),
plus counters of the begin/commit/rollback calls issued, so that "only the outermost
invocation commits or rolls back" is an observable statement. -/
structure TxSession where
  inTxn : Bool
  begins : Nat
  commits : Nat
  rollbacks : Nat
deriving DecidableEq

/-- `session.begin()`: opens a transaction. -/
def TxSession.begin (s : TxSession) : TxSession :=
  ⟨true, s.begins + 1, s.commits, s.rollbacks⟩

/-- The commit performed when `with session.begin()` exits without an exception. -/
def TxSession.commit (s : TxSession) : TxSession :=
  ⟨false, s.begins, s.commits + 1, s.rollbacks⟩

/-- `session.rollback()` (also issued by `with session.begin()` on an exception). -/
def TxSession.rollback (s : TxSession) : TxSession :=
  ⟨false, s.begins, s.commits, s.rollbacks + 1⟩

/-- `app/util/transaction_util.py::transactional`.  `outermost` is
`session.get_transaction() is None`.  An outermost call runs the body inside
`with session.begin()` — committing on success; on an exception the context manager
rolls back and the `except` handler issues a further `session.rollback()` — and converts
`StaleDataError` into
`ConcurrencyException(f"Resource was updated by another transaction in method {m}.")`.
A nested call runs the body under `nullcontext()` and re-raises every exception
unchanged (both `except` arms `raise` without rollback when not outermost). -/
def transactional (method_name : String)
    (fn : TxSession → Except PyException α × TxSession) (s : TxSession) :
    Except PyException α × TxSession :=
  let outermost := !s.inTxn
  if outermost then
    match fn s.begin with
    | (.ok a, s1) => (.ok a, s1.commit)
    | (.error .staleData, s1) =>
      (.error (.concurrency ("Resource was updated by another transaction in method "
        ++ method_name ++ ".")), s1.rollback.rollback)
    | (.error e, s1) => (.error e, s1.rollback.rollback)
  else
    fn s

theorem transactional_nested {α : Type} (n : String)
    (fn : TxSession → Except PyException α × TxSession) (s : TxSession)
    (h : s.inTxn = true) : transactional n fn s = fn s := by
  simp [transactional, h]

theorem transactional_outer_ok {α : Type} (n : String)
    (fn : TxSession → Except PyException α × TxSession) (s : TxSession) (a : α)
    (s1 : TxSession) (hs : s.inTxn = false) (hfn : fn s.begin = (.ok a, s1)) :
    transactional n fn s = (.ok a, s1.commit) := by
  simp [transactional, hs, hfn]

theorem transactional_outer_stale {α : Type} (n : String)
    (fn : TxSession → Except PyException α × TxSession) (s : TxSession)
    (s1 : TxSession) (hs : s.inTxn = false) (hfn : fn s.begin = (.error .staleData, s1)) :
    transactional n fn s =
      (.error (.concurrency ("Resource was updated by another transaction in method "
        ++ n ++ ".")), s1.rollback.rollback) := by
  simp [transactional, hs, hfn]

theorem transactional_outer_err {α : Type} (n : String)
    (fn : TxSession → Except PyException α × TxSession) (s : TxSession)
    (e : PyException) (s1 : TxSession) (hs : s.inTxn = false)
    (he : e ≠ .staleData) (hfn : fn s.begin = (.error e, s1)) :
    transactional n fn s = (.error e, s1.rollback.rollback) := by
  cases e with
  | staleData => exact absurd rfl he
  | valueError m => simp [transactional, hs, hfn]
  | attributeError => simp [transactional, hs, hfn]
  | embeddingService m c => simp [transactional, hs, hfn]
  | concurrency m => simp [transactional, hs, hfn]
  | invalidRowCountInLimit => simp [transactional, hs, hfn]
  | providerFailure c => simp [transactional, hs, hfn]

/-- C4: nested invocations of `transactional` join the active transaction (the wrapped
body runs as-is: no begin, no commit, no rollback, and every exception — including
`StaleDataError` — is re-raised unchanged); an outermost invocation opens the boundary,
commits exactly once on success, rolls back on error, and converts `StaleDataError` into
the distinguished `ConcurrencyException` naming the outermost method; composing two
wrappers performs a single boundary. -/
theorem transactional_boundary_semantics :
    (∀ (α : Type) (n : String) (fn : TxSession → Except PyException α × TxSession)
        (s : TxSession), s.inTxn = true → transactional n fn s = fn s) ∧
    (∀ (α : Type) (n : String) (fn : TxSession → Except PyException α × TxSession)
        (s : TxSession) (a : α) (s1 : TxSession), s.inTxn = false →
        fn s.begin = (.ok a, s1) → transactional n fn s = (.ok a, s1.commit)) ∧
    (∀ (α : Type) (n : String) (fn : TxSession → Except PyException α × TxSession)
        (s s1 : TxSession), s.inTxn = false → fn s.begin = (.error .staleData, s1) →
        transactional n fn s =
          (.error (.concurrency ("Resource was updated by another transaction in method "
            ++ n ++ ".")), s1.rollback.rollback)) ∧
    (∀ (α : Type) (n : String) (fn : TxSession → Except PyException α × TxSession)
        (s : TxSession) (e : PyException) (s1 : TxSession), s.inTxn = false →
        e ≠ .staleData → fn s.begin = (.error e, s1) →
        transactional n fn s = (.error e, s1.rollback.rollback)) ∧
    (∀ (α : Type) (n1 n2 : String) (g : TxSession → Except PyException α × TxSession)
        (s : TxSession), s.inTxn = false →
        transactional n1 (fun t => transactional n2 g t) s = transactional n1 g s) := by
  refine ⟨fun α => transactional_nested, fun α => transactional_outer_ok,
    fun α => transactional_outer_stale, fun α => transactional_outer_err,
    ?_⟩
  intro α n1 n2 g s hs
  simp [transactional, hs, TxSession.begin]

/-- A stateless body returning a fixed value, for the witness. -/
def okBody (a : Nat) : TxSession → Except PyException Nat × TxSession :=
  fun t => (.ok a, t)

/-- A stateless body raising `StaleDataError`, for the witness. -/
def staleBody : TxSession → Except PyException Nat × TxSession :=
  fun t => (.error .staleData, t)

/-- Witness for C4: a fresh session (no active transaction) with a successful body
commits once; a nested call with an active transaction passes a `StaleDataError` through
unchanged; an outermost call over a stale body converts it; composing two wrappers
equals a single boundary. -/
theorem transactional_boundary_semantics_witness :
    transactional "outer" (okBody 7) ⟨false, 0, 0, 0⟩ =
      (.ok 7, TxSession.commit (TxSession.begin ⟨false, 0, 0, 0⟩)) ∧
    transactional "inner" staleBody ⟨true, 1, 0, 0⟩ = staleBody ⟨true, 1, 0, 0⟩ ∧
    transactional "outer" staleBody ⟨false, 0, 0, 0⟩ =
      (.error (.concurrency ("Resource was updated by another transaction in method "
        ++ "outer" ++ ".")),
        (TxSession.begin ⟨false, 0, 0, 0⟩).rollback.rollback) ∧
    transactional "outer" (fun t => transactional "inner" (okBody 7) t) ⟨false, 0, 0, 0⟩ =
      transactional "outer" (okBody 7) ⟨false, 0, 0, 0⟩ :=
  ⟨transactional_boundary_semantics.2.1 Nat "outer" (okBody 7) ⟨false, 0, 0, 0⟩ 7
      (TxSession.begin ⟨false, 0, 0, 0⟩) rfl rfl,
    transactional_boundary_semantics.1 Nat "inner" staleBody ⟨true, 1, 0, 0⟩ rfl,
    transactional_boundary_semantics.2.2.1 Nat "outer" staleBody ⟨false, 0, 0, 0⟩
      (TxSession.begin ⟨false, 0, 0, 0⟩) rfl rfl,
    transactional_boundary_semantics.2.2.2.2 Nat "outer" "inner" (okBody 7)
      ⟨false, 0, 0, 0⟩ rfl⟩

/-- Observable outcome of a `retry_conflicts`-wrapped call: the returned value or raised
exception (`none` models Python's implicit `return None` when `max_retries < 1` makes the
loop body never run), how many times the wrapped function was invoked, how many
`session.rollback()` calls were issued, and the sequence of `sleep` durations in
seconds. -/
structure RetryTrace (α : Type) where
  result : Option (Except PyException α)
  calls : Nat
  rollbacks : Nat
  sleeps : List ℚ

/-- The `for attempt in range(1, max_retries + 1)` loop of `retry_conflicts`; `fuel` is
the number of remaining iterations (`max_retries - attempt + 1` at every call site),
carried only to exhibit termination.  Each iteration invokes the wrapped function; on
`ConcurrencyException` the session is rolled back and, unless the attempt is the last
(`attempt == max_retries` re-raises), the loop sleeps `backoff_sec * attempt` and
retries; any other exception propagates immediately; a successful value is returned
unchanged. -/
def retryGo (fn : Nat → Except PyException α) (max_retries : Nat) (backoff_sec : ℚ) :
    Nat → Nat → Nat → Nat → List ℚ → RetryTrace α
  | 0, _, calls, rollbacks, sleeps => ⟨none, calls, rollbacks, sleeps⟩
  | fuel + 1, attempt, calls, rollbacks, sleeps =>
    match fn attempt with
    | .ok a => ⟨some (.ok a), calls + 1, rollbacks, sleeps⟩
    | .error (.concurrency m) =>
      if attempt = max_retries then
        ⟨some (.error (.concurrency m)), calls + 1, rollbacks + 1, sleeps⟩
      else
        retryGo fn max_retries backoff_sec fuel (attempt + 1) (calls + 1) (rollbacks + 1)
          (sleeps ++ [backoff_sec * (attempt : ℚ)])
    | .error e => ⟨some (.error e), calls + 1, rollbacks, sleeps⟩

/-- `app/util/transaction_util.py::retry_conflicts` (decorator defaults:
`max_retries = 3`, `backoff_sec = 0.1`) applied to a wrapped function whose i-th
invocation (1-indexed) yields `fn i`. -/
def retry_conflicts (fn : Nat → Except PyException α) (max_retries : Nat)
    (backoff_sec : ℚ) : RetryTrace α :=
  retryGo fn max_retries backoff_sec max_retries 1 0 0 []

theorem retryGo_calls_le {α : Type} (fn : Nat → Except PyException α)
    (max_retries : Nat) (backoff_sec : ℚ) (fuel : Nat) :
    ∀ (attempt calls rollbacks : Nat) (sleeps : List ℚ),
      (retryGo fn max_retries backoff_sec fuel attempt calls rollbacks sleeps).calls ≤
        calls + fuel := by
  induction fuel with
  | zero => intro attempt calls rollbacks sleeps; simp [retryGo]
  | succ f ih =>
    intro attempt calls rollbacks sleeps
    rw [retryGo]
    cases fn attempt with
    | ok a => simp
    | error e =>
      cases e with
      | concurrency m =>
        by_cases hlast : attempt = max_retries
        · simp [hlast]
        · simp only [if_neg hlast]
          calc (retryGo fn max_retries backoff_sec f (attempt + 1) (calls + 1)
                  (rollbacks + 1) (sleeps ++ [backoff_sec * (attempt : ℚ)])).calls
              ≤ (calls + 1) + f := ih _ _ _ _
            _ ≤ calls + (f + 1) := by omega
      | valueError m => simp
      | attributeError => simp
      | embeddingService m c => simp
      | staleData => simp
      | invalidRowCountInLimit => simp
      | providerFailure c => simp

theorem RetryTrace.mk_congr {α : Type} {res : Option (Except PyException α)}
    {c1 c2 r1 r2 : Nat} {s1 s2 : List ℚ} (hc : c1 = c2) (hr : r1 = r2) (hs : s1 = s2) :
    RetryTrace.mk res c1 r1 s1 = RetryTrace.mk res c2 r2 s2 := by
  subst hc
  subst hr
  subst hs
  rfl

theorem retryGo_all_conflict {α : Type} (fn : Nat → Except PyException α)
    (max_retries : Nat) (backoff_sec : ℚ) (m : String)
    (hconf : ∀ i, 1 ≤ i → i ≤ max_retries → fn i = .error (.concurrency m)) :
    ∀ (fuel attempt calls rollbacks : Nat) (sleeps : List ℚ),
      fuel = max_retries - attempt + 1 → 1 ≤ attempt → attempt ≤ max_retries →
      retryGo fn max_retries backoff_sec fuel attempt calls rollbacks sleeps =
        ⟨some (.error (.concurrency m)), calls + (max_retries - attempt + 1),
          rollbacks + (max_retries - attempt + 1),
          sleeps ++ ((List.range (max_retries - attempt)).map
            (fun j => backoff_sec * ((attempt + j : Nat) : ℚ)))⟩ := by
  intro fuel
  induction fuel with
  | zero => intro attempt calls rollbacks sleeps hfuel h1 h2; omega
  | succ f ih =>
    intro attempt calls rollbacks sleeps hfuel h1 h2
    simp only [retryGo, hconf attempt h1 h2]
    by_cases hlast : attempt = max_retries
    · rw [if_pos hlast]
      have hz : max_retries - attempt = 0 := by omega
      refine RetryTrace.mk_congr (by omega) (by omega) ?_
      rw [hz]
      simp
    · have hlt : attempt < max_retries := by omega
      simp only [if_neg hlast]
      rw [ih (attempt + 1) (calls + 1) (rollbacks + 1)
        (sleeps ++ [backoff_sec * (attempt : ℚ)]) (by omega) (by omega) (by omega)]
      have hrange : max_retries - attempt = (max_retries - (attempt + 1)) + 1 := by
        omega
      refine RetryTrace.mk_congr (by omega) (by omega) ?_
      rw [hrange, List.range_succ_eq_map, List.map_cons, List.map_map,
        List.append_assoc]
      simp only [Nat.add_zero, List.singleton_append]
      congr 1
      congr 1
      apply List.map_congr_left
      intro j hj
      simp only [Function.comp]
      exact congrArg (fun t : Nat => backoff_sec * (t : ℚ)) (by omega)

/-- C5: for `retry_conflicts` with maximum attempts N and base backoff b — the wrapped
operation is invoked at most N times; a first-attempt success is returned unchanged with
no rollback and no sleep; a non-conflict exception propagates immediately without retry;
when every attempt raises `ConcurrencyException`, each of the N attempts rolls back, the
loop sleeps b×1, …, b×(N−1) between attempts, and the conflict raised on the final
attempt propagates; a conflict followed by a success re-invokes the operation from
scratch and returns the success. -/
theorem retry_conflicts_semantics :
    (∀ (α : Type) (fn : Nat → Except PyException α) (N : Nat) (b : ℚ),
        (retry_conflicts fn N b).calls ≤ N) ∧
    (∀ (α : Type) (fn : Nat → Except PyException α) (N : Nat) (b : ℚ) (a : α),
        1 ≤ N → fn 1 = .ok a →
        retry_conflicts fn N b = ⟨some (.ok a), 1, 0, []⟩) ∧
    (∀ (α : Type) (fn : Nat → Except PyException α) (N : Nat) (b : ℚ)
        (e : PyException), 1 ≤ N → (∀ m, e ≠ .concurrency m) → fn 1 = .error e →
        retry_conflicts fn N b = ⟨some (.error e), 1, 0, []⟩) ∧
    (∀ (α : Type) (fn : Nat → Except PyException α) (N : Nat) (b : ℚ) (m : String),
        1 ≤ N → (∀ i, 1 ≤ i → i ≤ N → fn i = .error (.concurrency m)) →
        retry_conflicts fn N b =
          ⟨some (.error (.concurrency m)), N, N,
            (List.range (N - 1)).map (fun j => b * ((1 + j : Nat) : ℚ))⟩) ∧
    (∀ (α : Type) (fn : Nat → Except PyException α) (N : Nat) (b : ℚ) (m : String)
        (a : α), 2 ≤ N → fn 1 = .error (.concurrency m) → fn 2 = .ok a →
        retry_conflicts fn N b = ⟨some (.ok a), 2, 1, [b * 1]⟩) := by
  refine ⟨?_, ?_, ?_, ?_, ?_⟩
  · intro α fn N b
    have := retryGo_calls_le fn N b N 1 0 0 []
    simpa [retry_conflicts] using this
  · intro α fn N b a hN hfn
    obtain ⟨f, rfl⟩ : ∃ f, N = f + 1 := ⟨N - 1, by omega⟩
    rw [retry_conflicts, retryGo, hfn]
  · intro α fn N b e hN he hfn
    obtain ⟨f, rfl⟩ : ∃ f, N = f + 1 := ⟨N - 1, by omega⟩
    rw [retry_conflicts, retryGo, hfn]
    cases e with
    | concurrency m => exact absurd rfl (he m)
    | valueError m => rfl
    | attributeError => rfl
    | embeddingService m c => rfl
    | staleData => rfl
    | invalidRowCountInLimit => rfl
    | providerFailure c => rfl
  · intro α fn N b m hN hconf
    rw [retry_conflicts]
    rw [retryGo_all_conflict fn N b m hconf N 1 0 0 []
      (by omega) (by omega) (by omega)]
    refine RetryTrace.mk_congr (by omega) (by omega) ?_
    simp
  · intro α fn N b m a hN h1 h2
    obtain ⟨f, rfl⟩ : ∃ f, N = f + 2 := ⟨N - 2, by omega⟩
    simp only [retry_conflicts, retryGo, h1]
    rw [if_neg (show ¬ (1 = f + 2) by omega)]
    simp only [retryGo, h2]
    norm_num

/-- Wrapped function that always succeeds, for the witness. -/
def alwaysOk : Nat → Except PyException Nat := fun _ => .ok 7

/-- Wrapped function that always raises a non-conflict error, for the witness. -/
def alwaysValueError : Nat → Except PyException Nat := fun _ => .error (.valueError "boom")

/-- Wrapped function that always raises `ConcurrencyException`, for the witness. -/
def alwaysConflict : Nat → Except PyException Nat := fun _ => .error (.concurrency "conflict")

/-- Wrapped function that conflicts once and then succeeds, for the witness. -/
def conflictThenOk : Nat → Except PyException Nat :=
  fun i => if i = 1 then .error (.concurrency "conflict") else .ok 5

/-- Witness for C5 at `max_retries = 3`, `backoff_sec = 1/10`, exercising every conjunct
at a concrete wrapped function. -/
theorem retry_conflicts_semantics_witness :
    (retry_conflicts alwaysConflict 3 (1/10)).calls ≤ 3 ∧
    retry_conflicts alwaysOk 3 (1/10) = ⟨some (.ok 7), 1, 0, []⟩ ∧
    retry_conflicts alwaysValueError 3 (1/10) =
      ⟨some (.error (.valueError "boom")), 1, 0, []⟩ ∧
    retry_conflicts alwaysConflict 3 (1/10) =
      ⟨some (.error (.concurrency "conflict")), 3, 3,
        (List.range (3 - 1)).map (fun j => (1/10 : ℚ) * ((1 + j : Nat) : ℚ))⟩ ∧
    retry_conflicts conflictThenOk 3 (1/10) = ⟨some (.ok 5), 2, 1, [(1/10 : ℚ) * 1]⟩ :=
  ⟨retry_conflicts_semantics.1 Nat alwaysConflict 3 (1/10),
    retry_conflicts_semantics.2.1 Nat alwaysOk 3 (1/10) 7 (by omega) rfl,
    retry_conflicts_semantics.2.2.1 Nat alwaysValueError 3 (1/10)
      (.valueError "boom") (by omega) (fun m => by simp) rfl,
    retry_conflicts_semantics.2.2.2.1 Nat alwaysConflict 3 (1/10) "conflict" (by omega)
      (fun i h1 h2 => rfl),
    retry_conflicts_semantics.2.2.2.2 Nat conflictThenOk 3 (1/10) "conflict" 5
      (by omega) rfl rfl⟩

/-- Sum of squares of a rational vector (the square of its Euclidean norm). -/
def sumSq (v : List ℚ) : ℚ := (v.map fun x => x * x).sum

/-- Dot product of two equal-length vectors. -/
def dot (a b : List ℚ) : ℚ := (List.zipWith (· * ·) a b).sum

/-- Decidable form of the pgvector cosine-distance comparison ordering
`ORDER BY e.embedding <=> :q` in `EventRepositoryImpl.search_by_embedding`.  With
`x = dot q a`, `y = dot q b`, `sa = ‖a‖²`, `sb = ‖b‖²`, the comparison
`1 − x/(‖q‖‖a‖) ≤ 1 − y/(‖q‖‖b‖)` is equivalent (for nonzero norms) to
`x·‖b‖ ≥ y·‖a‖`, decided over ℚ by sign analysis and squaring.  (pgvector produces NaN
for a zero-norm operand; the comparator here is total, which does not affect the
length-only properties of the claims.) -/
def distLE (q : List ℚ) (a b : Event) : Bool :=
  let va := a.embedding.getD []
  let vb := b.embedding.getD []
  let x := dot q va
  let y := dot q vb
  let sa := sumSq va
  let sb := sumSq vb
  if 0 ≤ x then
    if y ≤ 0 then true else decide (y * y * sa ≤ x * x * sb)
  else
    if 0 ≤ y then false else decide (x * x * sb ≤ y * y * sa)

/-- Insert an event into a list sorted by ascending cosine distance to `q`. -/
def insertByDist (q : List ℚ) (e : Event) : List Event → List Event
  | [] => [e]
  | f :: rest => if distLE q e f then e :: f :: rest else f :: insertByDist q e rest

/-- Sort events by ascending cosine distance to `q` (the `ORDER BY` of the SQL). -/
def sortByDist (q : List ℚ) : List Event → List Event
  | [] => []
  | e :: rest => insertByDist q e (sortByDist q rest)

theorem insertByDist_length (q : List ℚ) (e : Event) (l : List Event) :
    (insertByDist q e l).length = l.length + 1 := by
  induction l with
  | nil => rfl
  | cons f rest ih =>
    rw [insertByDist]
    split
    · rfl
    · simp [ih]

theorem sortByDist_length (q : List ℚ) (l : List Event) :
    (sortByDist q l).length = l.length := by
  induction l with
  | nil => rfl
  | cons e rest ih => rw [sortByDist, insertByDist_length, ih, List.length_cons]

/-- `EventRepositoryImpl.search_by_embedding`, embedding the SQL statement
`SELECT e.* FROM events e WHERE e.embedding IS NOT NULL ORDER BY e.embedding <=> :q
LIMIT :k` as executed by PostgreSQL: rows lacking an embedding are excluded, the
remaining rows are ordered by ascending cosine distance to the query vector, and
`LIMIT :k` keeps the first k.  The parameter `k` is bound unchecked
(`bindparam("k", value=int(k))`); PostgreSQL rejects a negative LIMIT with error 2201W
("LIMIT must not be negative"), surfaced by the driver as a DataError, while `LIMIT 0`
returns no rows.  The `SET LOCAL ivfflat.probes` tuning statement affects recall only
and not the properties modelled here. -/
def search_by_embedding (events : List Event) (query_vector : List ℚ) (k : Int) :
    Except PyException (List Event) :=
  if k < 0 then .error .invalidRowCountInLimit
  else
    .ok ((sortByDist query_vector
      (events.filter fun e => e.embedding.isSome)).take k.toNat)

/-- C6 counterexample: for `k = -1` (a value ≤ 0) the query does not return an empty
sequence — it raises PostgreSQL's negative-LIMIT error. -/
theorem search_negative_k_raises :
    search_by_embedding [] [] (-1) = .error .invalidRowCountInLimit ∧
    ((-1 : Int) ≤ 0) := ⟨rfl, by decide⟩

/-- C6 (amended): `k = 0` yields an empty sequence without error; for `k > 0` the result
is a success with at most `k` events; an empty match set (no stored event carries an
embedding) yields the empty sequence — not an error — for every `k ≥ 0`; but for `k < 0`
the call fails with the storage layer's negative-LIMIT error instead of returning an
empty sequence. -/
theorem search_by_embedding_amended :
    (∀ (events : List Event) (q : List ℚ),
        search_by_embedding events q 0 = .ok []) ∧
    (∀ (events : List Event) (q : List ℚ) (k : Int), 0 < k →
        ∃ res, search_by_embedding events q k = .ok res ∧ res.length ≤ k.toNat) ∧
    (∀ (events : List Event) (q : List ℚ) (k : Int), 0 ≤ k →
        events.filter (fun e => e.embedding.isSome) = [] →
        search_by_embedding events q k = .ok []) ∧
    (∀ (q : List ℚ) (k : Int), k < 0 →
        search_by_embedding [] q k = .error .invalidRowCountInLimit) := by
  refine ⟨?_, ?_, ?_, ?_⟩
  · intro events q
    simp [search_by_embedding]
  · intro events q k hk
    refine ⟨(sortByDist q (events.filter fun e => e.embedding.isSome)).take k.toNat,
      ?_, ?_⟩
    · rw [search_by_embedding, if_neg (by omega)]
    · rw [List.length_take]
      omega
  · intro events q k hk hfilter
    rw [search_by_embedding, if_neg (by omega), hfilter]
    simp [sortByDist]
  · intro q k hk
    rw [search_by_embedding, if_pos hk]

/-- An event carrying an embedding, for the witness. -/
def evWithEmbedding : Event :=
  ⟨some "Launch Party", some "party", some "Skopje", some "tech",
    some "2025-08-26T14:00:00", some "Ana", some [1, 0]⟩

/-- An event with no embedding (excluded from candidacy), for the witness. -/
def evNoEmbedding : Event :=
  ⟨some "Art Fair", none, none, none, none, none, none⟩

/-- Witness for C6's amended theorem on a two-event store. -/
theorem search_by_embedding_amended_witness :
    search_by_embedding [evWithEmbedding, evNoEmbedding] [1, 0] 0 = .ok [] ∧
    (∃ res, search_by_embedding [evWithEmbedding, evNoEmbedding] [1, 0] 1 = .ok res ∧
      res.length ≤ (1 : Int).toNat) ∧
    search_by_embedding [evNoEmbedding] [1, 0] 3 = .ok [] ∧
    search_by_embedding [] [1, 0] (-2) = .error .invalidRowCountInLimit :=
  ⟨search_by_embedding_amended.1 [evWithEmbedding, evNoEmbedding] [1, 0],
    search_by_embedding_amended.2.1 [evWithEmbedding, evNoEmbedding] [1, 0] 1 (by decide),
    search_by_embedding_amended.2.2.1 [evNoEmbedding] [1, 0] 3 (by decide) (by decide),
    search_by_embedding_amended.2.2.2 [1, 0] (-2) (by decide)⟩

/-- `EmbeddingServiceImpl.create_embedding` up to (but not including) the final
normalization, which is real-valued and modelled separately as `pyNormalize`:
input validation (`not text.strip()`), the provider call (any raised exception is caught
and wrapped), payload extraction (`resp.data[0].embedding`, where the provider result
models `resp.data` as the list of embedding entries and an empty list makes the access
raise, caught and wrapped), the dimension check, and the zero-norm check
(`norm(vec) == 0` exactly when the sum of squares is 0).  Every failure raises the
single class `EmbeddingServiceException` with its default `status_code = 500` (no call
site passes a status). -/
def create_embedding (cfg : Config)
    (provider : String → Except PyException (List (List ℚ))) (text : String) :
    Except PyException (List ℚ) :=
  if pyStrip text = "" then
    .error (.embeddingService "Input text must be a non-empty string." 500)
  else
    match provider text with
    | .error _ => .error (.embeddingService "OpenAI embedding request failed." 500)
    | .ok data =>
      match data.head? with
      | none =>
        .error (.embeddingService "OpenAI returned an unexpected embedding payload." 500)
      | some emb =>
        if emb.length ≠ cfg.UNIFIED_VECTOR_DIM then
          .error (.embeddingService ("Expected " ++ toString cfg.UNIFIED_VECTOR_DIM ++
            "-dim embedding, got " ++ toString emb.length) 500)
        else if sumSq emb = 0 then
          .error (.embeddingService "Embedding vector has zero norm, cannot normalize." 500)
        else .ok emb

/-- The final two lines of `create_embedding`: `normalized = vec / norm(vec)` with
`norm` the Euclidean norm, i.e. each component divided by `sqrt(Σ xᵢ²)` (idealized over
the reals; the Python code computes this in float32). -/
noncomputable def pyNormalize (v : List ℚ) : List ℝ :=
  v.map fun x : ℚ => (x : ℝ) / Real.sqrt ((sumSq v : ℝ))

/-- Euclidean norm of a real vector. -/
noncomputable def l2norm (v : List ℝ) : ℝ :=
  Real.sqrt ((v.map fun x => x ^ 2).sum)

theorem sumSq_nonneg (v : List ℚ) : 0 ≤ sumSq v := by
  induction v with
  | nil => simp [sumSq]
  | cons x rest ih =>
    simp only [sumSq, List.map_cons, List.sum_cons] at ih ⊢
    exact add_nonneg (mul_self_nonneg x) ih

theorem sumSq_castR (v : List ℚ) :
    ((sumSq v : ℚ) : ℝ) = (v.map fun q : ℚ => (q : ℝ) ^ 2).sum := by
  induction v with
  | nil => simp [sumSq]
  | cons x rest ih =>
    have h1 : sumSq (x :: rest) = x * x + sumSq rest := by
      simp [sumSq]
    rw [h1, List.map_cons, List.sum_cons]
    push_cast
    rw [ih]
    ring

theorem create_embedding_empty_input {cfg : Config}
    {provider : String → Except PyException (List (List ℚ))} {text : String}
    (h1 : pyStrip text = "") :
    create_embedding cfg provider text =
      .error (.embeddingService "Input text must be a non-empty string." 500) := by
  rw [create_embedding, if_pos h1]

theorem create_embedding_provider_fail {cfg : Config}
    {provider : String → Except PyException (List (List ℚ))} {text : String}
    {e : PyException} (h1 : pyStrip text ≠ "") (hp : provider text = .error e) :
    create_embedding cfg provider text =
      .error (.embeddingService "OpenAI embedding request failed." 500) := by
  rw [create_embedding, if_neg h1, hp]

theorem create_embedding_dim_mismatch {cfg : Config}
    {provider : String → Except PyException (List (List ℚ))} {text : String}
    {emb : List ℚ} {rest : List (List ℚ)} (h1 : pyStrip text ≠ "")
    (hp : provider text = .ok (emb :: rest))
    (hlen : emb.length ≠ cfg.UNIFIED_VECTOR_DIM) :
    create_embedding cfg provider text =
      .error (.embeddingService ("Expected " ++ toString cfg.UNIFIED_VECTOR_DIM ++
        "-dim embedding, got " ++ toString emb.length) 500) := by
  rw [create_embedding, if_neg h1, hp]
  simp only [List.head?_cons]
  rw [if_pos hlen]

theorem create_embedding_zero_norm {cfg : Config}
    {provider : String → Except PyException (List (List ℚ))} {text : String}
    {emb : List ℚ} {rest : List (List ℚ)} (h1 : pyStrip text ≠ "")
    (hp : provider text = .ok (emb :: rest))
    (hlen : emb.length = cfg.UNIFIED_VECTOR_DIM) (hz : sumSq emb = 0) :
    create_embedding cfg provider text =
      .error (.embeddingService "Embedding vector has zero norm, cannot normalize."
        500) := by
  rw [create_embedding, if_neg h1, hp]
  simp only [List.head?_cons]
  rw [if_neg (by omega), if_pos hz]

theorem create_embedding_accepts {cfg : Config}
    {provider : String → Except PyException (List (List ℚ))} {text : String}
    {emb : List ℚ} {rest : List (List ℚ)} (h1 : pyStrip text ≠ "")
    (hp : provider text = .ok (emb :: rest))
    (hlen : emb.length = cfg.UNIFIED_VECTOR_DIM) (hz : sumSq emb ≠ 0) :
    create_embedding cfg provider text = .ok emb := by
  rw [create_embedding, if_neg h1, hp]
  simp only [List.head?_cons]
  rw [if_neg (by omega), if_neg hz]

theorem create_embedding_ok_props {cfg : Config}
    {provider : String → Except PyException (List (List ℚ))} {text : String}
    {emb : List ℚ} (h : create_embedding cfg provider text = .ok emb) :
    emb.length = cfg.UNIFIED_VECTOR_DIM ∧ sumSq emb ≠ 0 := by
  rw [create_embedding] at h
  by_cases h1 : pyStrip text = ""
  · simp [h1] at h
  · rw [if_neg h1] at h
    cases hp : provider text with
    | error e =>
      simp only [hp] at h
      exact Except.noConfusion h
    | ok data =>
      simp only [hp] at h
      cases hd : data.head? with
      | none =>
        simp only [hd] at h
        exact Except.noConfusion h
      | some v =>
        simp only [hd] at h
        by_cases hlen : v.length ≠ cfg.UNIFIED_VECTOR_DIM
        · rw [if_pos hlen] at h; simp at h
        · rw [if_neg hlen] at h
          by_cases hz : sumSq v = 0
          · rw [if_pos hz] at h; simp at h
          · rw [if_neg hz] at h
            simp only [Except.ok.injEq] at h
            subst h
            exact ⟨by omega, hz⟩

/-- C7: whenever `create_embedding` accepts the provider's vector (in particular whenever
the provider returned a well-formed vector of the configured dimension with non-zero
norm), the returned normalized vector has length `Config.UNIFIED_VECTOR_DIM` and
Euclidean norm 1 — in particular within the claimed tolerance 1e-6. -/
theorem create_embedding_unit_norm (cfg : Config)
    (provider : String → Except PyException (List (List ℚ))) (text : String)
    (emb : List ℚ) (h : create_embedding cfg provider text = .ok emb) :
    (pyNormalize emb).length = cfg.UNIFIED_VECTOR_DIM ∧
    l2norm (pyNormalize emb) = 1 ∧
    |l2norm (pyNormalize emb) - 1| ≤ 1 / 1000000 := by
  obtain ⟨hlen, hz⟩ := create_embedding_ok_props h
  have hS0 : ((sumSq emb : ℚ) : ℝ) ≠ 0 := by
    exact_mod_cast hz
  have hSnn : (0 : ℝ) ≤ ((sumSq emb : ℚ) : ℝ) := by
    exact_mod_cast sumSq_nonneg emb
  have hnorm : l2norm (pyNormalize emb) = 1 := by
    rw [l2norm, pyNormalize, List.map_map]
    have hmap : (emb.map ((fun x => x ^ 2) ∘ fun x : ℚ =>
        (x : ℝ) / Real.sqrt ((sumSq emb : ℝ)))) =
        emb.map fun q : ℚ => (q : ℝ) ^ 2 * (Real.sqrt ((sumSq emb : ℝ)))⁻¹ ^ 2 := by
      apply List.map_congr_left
      intro q hq
      simp only [Function.comp]
      ring
    rw [hmap, List.sum_map_mul_right, ← sumSq_castR]
    rw [← Real.sqrt_inv, Real.sq_sqrt (by positivity)]
    rw [mul_inv_cancel₀ hS0, Real.sqrt_one]
  refine ⟨?_, hnorm, ?_⟩
  · rw [pyNormalize, List.length_map, hlen]
  · rw [hnorm]
    norm_num

/-- Provider returning the two-component vector (3, 4), for the witness. -/
def prov34 : String → Except PyException (List (List ℚ)) := fun _ => .ok [[3, 4]]

/-- Witness for C7 at dimension 2 with raw vector (3, 4): normalization yields a vector
of length 2 and unit norm. -/
theorem create_embedding_unit_norm_witness :
    (pyNormalize [3, 4]).length = (⟨2, 5⟩ : Config).UNIFIED_VECTOR_DIM ∧
    l2norm (pyNormalize [3, 4]) = 1 ∧
    |l2norm (pyNormalize [3, 4]) - 1| ≤ 1 / 1000000 :=
  create_embedding_unit_norm ⟨2, 5⟩ prov34 "hi" [3, 4]
    (create_embedding_accepts (by decide) rfl (by decide) (by norm_num [sumSq]))

/-- Provider whose call raises, for the C8 statements. -/
def provFail : String → Except PyException (List (List ℚ)) :=
  fun _ => .error (.providerFailure 42)

/-- Provider returning a zero vector of dimension 2, for the C8 statements. -/
def provZero : String → Except PyException (List (List ℚ)) := fun _ => .ok [[0, 0]]

/-- C8 counterexample: empty-after-trim input, provider failure and a zero-norm raw
vector all raise the SAME exception class `EmbeddingServiceException` with the same
default status code 500 — the claimed distinct `InvalidInput` / `EmbeddingProviderError`
/ `DegenerateVector` kinds are collapsed into one generic class, distinguishable only by
message text. -/
theorem embedding_error_kinds_collapsed :
    create_embedding ⟨2, 5⟩ provZero "  " =
      .error (.embeddingService "Input text must be a non-empty string." 500) ∧
    create_embedding ⟨2, 5⟩ provFail "x" =
      .error (.embeddingService "OpenAI embedding request failed." 500) ∧
    create_embedding ⟨2, 5⟩ provZero "x" =
      .error (.embeddingService "Embedding vector has zero norm, cannot normalize." 500) ∧
    (PyException.embeddingService "Input text must be a non-empty string." 500).className
      = (PyException.embeddingService "OpenAI embedding request failed." 500).className ∧
    (PyException.embeddingService "Input text must be a non-empty string." 500).className
      = (PyException.embeddingService
          "Embedding vector has zero norm, cannot normalize." 500).className :=
  ⟨create_embedding_empty_input (by decide),
    create_embedding_provider_fail (by decide) rfl,
    create_embedding_zero_norm (by decide) rfl (by decide)
      (by norm_num [sumSq]),
    rfl, rfl⟩

/-- C8 (amended): all four failure cases of `create_embedding` raise the single class
`EmbeddingServiceException` with the same default status code 500, distinguished only by
their message strings — empty-after-trim input ("Input text must be a non-empty
string."), provider failure ("OpenAI embedding request failed."), mismatched dimension
("Expected ...-dim embedding, got ..."), and zero-norm raw vector ("Embedding vector has
zero norm, cannot normalize."); no separate InvalidInput / EmbeddingProviderError /
DegenerateVector classes exist. -/
theorem create_embedding_error_messages (cfg : Config)
    (provider : String → Except PyException (List (List ℚ))) (text : String) :
    (pyStrip text = "" → create_embedding cfg provider text =
      .error (.embeddingService "Input text must be a non-empty string." 500)) ∧
    (∀ e, pyStrip text ≠ "" → provider text = .error e →
      create_embedding cfg provider text =
        .error (.embeddingService "OpenAI embedding request failed." 500)) ∧
    (∀ emb rest, pyStrip text ≠ "" → provider text = .ok (emb :: rest) →
      emb.length ≠ cfg.UNIFIED_VECTOR_DIM →
      create_embedding cfg provider text =
        .error (.embeddingService ("Expected " ++ toString cfg.UNIFIED_VECTOR_DIM ++
          "-dim embedding, got " ++ toString emb.length) 500)) ∧
    (∀ emb rest, pyStrip text ≠ "" → provider text = .ok (emb :: rest) →
      emb.length = cfg.UNIFIED_VECTOR_DIM → sumSq emb = 0 →
      create_embedding cfg provider text =
        .error (.embeddingService "Embedding vector has zero norm, cannot normalize."
          500)) := by
  refine ⟨?_, ?_, ?_, ?_⟩
  · intro h1
    exact create_embedding_empty_input h1
  · intro e h1 hp
    exact create_embedding_provider_fail h1 hp
  · intro emb rest h1 hp hlen
    exact create_embedding_dim_mismatch h1 hp hlen
  · intro emb rest h1 hp hlen hz
    exact create_embedding_zero_norm h1 hp hlen hz

/-- Provider returning a wrong-dimension vector, for the witness. -/
def provShort : String → Except PyException (List (List ℚ)) := fun _ => .ok [[1]]

/-- Witness for C8's amended theorem: each failure case at a concrete input. -/
theorem create_embedding_error_messages_witness :
    create_embedding ⟨2, 5⟩ provZero " " =
      .error (.embeddingService "Input text must be a non-empty string." 500) ∧
    create_embedding ⟨2, 5⟩ provFail "x" =
      .error (.embeddingService "OpenAI embedding request failed." 500) ∧
    create_embedding ⟨2, 5⟩ provShort "x" =
      .error (.embeddingService ("Expected " ++ toString (⟨2, 5⟩ : Config).UNIFIED_VECTOR_DIM
        ++ "-dim embedding, got " ++ toString ([(1 : ℚ)]).length) 500) ∧
    create_embedding ⟨2, 5⟩ provZero "x" =
      .error (.embeddingService "Embedding vector has zero norm, cannot normalize." 500) :=
  ⟨(create_embedding_error_messages ⟨2, 5⟩ provZero " ").1 rfl,
    (create_embedding_error_messages ⟨2, 5⟩ provFail "x").2.1 (.providerFailure 42)
      (by decide) rfl,
    (create_embedding_error_messages ⟨2, 5⟩ provShort "x").2.2.1 [1] [] (by decide) rfl
      (by decide),
    (create_embedding_error_messages ⟨2, 5⟩ provZero "x").2.2.2 [0, 0] [] (by decide) rfl
      (by decide) (by norm_num [sumSq])⟩

end EventFinder
